import Mathlib

/-!
Shallow embedding of the record-management backend in `server.py`
(a small Flask + sqlite application).

The relational store is modelled as explicit Lean state:
an employee table as a list of rows with an autoincrement counter,
the users and admin tables as lists of rows, and the upload directory
as a list of file paths.  Each HTTP handler of the source becomes a
pure function from a request value and a state to a response value
and a new state.  HTTP status codes are recovered from the response
constructors by `status` functions, mirroring the `jsonify(...), code`
pairs of the source.
-/

namespace Seeni

/-- Rows of the `users` table: id, username, password (plaintext). -/
structure UserRow where
  id : Nat
  username : String
  password : String
deriving DecidableEq, Repr

/-- Rows of the `admin` table: id and the admin pass value. -/
structure AdminRow where
  id : Nat
  adminpass : String
deriving DecidableEq, Repr

/-- Rows of the `employees` table, in the column order of the schema.
`photo_path` is the nullable TEXT column; `created_at` abstracts the
TIMESTAMP default as a natural number. -/
structure EmployeeRow where
  id : Nat
  name : String
  email : String
  department : String
  role : String
  roll_number : String
  photo_path : Option String
  created_at : Nat
deriving DecidableEq, Repr

/-- Server state after `init_db` has run: the three tables plus the
autoincrement counter of `employees` and the set of files on disk
(the upload directory and anything else reachable). -/
structure ServerState where
  users : List UserRow
  admin : List AdminRow
  employees : List EmployeeRow
  nextEmpId : Nat
  files : List String
deriving DecidableEq, Repr

/-- Config constant `ALLOWED_EXTENSIONS = {"png","jpg","jpeg","webp","gif"}`. -/
def ALLOWED_EXTENSIONS : List String := ["png", "jpg", "jpeg", "webp", "gif"]

/-- Stand-in for the config constant `UPLOAD_DIR = APP_DIR / "uploads"`
(the concrete absolute path is environment dependent; the handlers only
ever prepend it to generated filenames). -/
def UPLOAD_DIR_STR : String := "/srv/app/uploads"

/-- Python `str.lower()` on each character. -/
def lowerStr (s : String) : String :=
  String.mk (s.toList.map Char.toLower)

/-- Python `str.strip()`: remove leading and trailing whitespace. -/
def pyStrip (s : String) : String :=
  String.mk
    (((s.toList.dropWhile Char.isWhitespace).reverse.dropWhile Char.isWhitespace).reverse)

/-- Python `s.rsplit(".", 1)[1]`: the part of the string after the last
dot (total function; the source guards the call with `"." in filename`). -/
def afterLastDot (s : String) : String :=
  String.mk ((s.toList.reverse.takeWhile (fun c => c ≠ '.')).reverse)

/-- Python `os.path.basename`: the part of a path after the last slash. -/
def basename (p : String) : String :=
  String.mk ((p.toList.reverse.takeWhile (fun c => c ≠ '/')).reverse)

/-- Source `allowed_file`: `"." in filename and
filename.rsplit(".", 1)[1].lower() in ALLOWED_EXTENSIONS`. -/
def allowed_file (filename : String) : Bool :=
  filename.toList.contains '.' && ALLOWED_EXTENSIONS.contains (lowerStr (afterLastDot filename))

/-- Characters kept by werkzeug `secure_filename` (its ASCII strip
regular expression keeps letters, digits, underscore, dot, dash). -/
def secureKeep (c : Char) : Bool :=
  c.isAlphanum || c = '_' || c = '.' || c = '-'

/-- Werkzeug `secure_filename` restricted to ASCII input: path
separators become spaces, whitespace runs become single underscores,
characters outside the kept set are dropped, and leading and trailing
dots and underscores are stripped. -/
def secure_filename (filename : String) : String :=
  let s := filename.map (fun c => if c = '/' then ' ' else c)
  let joined := String.intercalate "_" ((s.split (fun c => c.isWhitespace)).filter (fun t => t ≠ ""))
  let kept := joined.toList.filter secureKeep
  let stripped :=
    ((kept.dropWhile (fun c => c = '.' || c = '_')).reverse.dropWhile (fun c => c = '.' || c = '_')).reverse
  String.mk stripped

/-- Shaping of `photo_path` into a public URL, as in the source:
`f"/uploads/.../basename" if photo else None` (the empty string is
falsy in Python, like `None`). -/
def photoUrlOf (photo_path : Option String) : Option String :=
  match photo_path with
  | some p => if p ≠ "" then some ("/uploads/" ++ basename p) else none
  | none => none

/-- View object produced by `row_to_employee_dict`: every column except
the raw `photo_path`, which is replaced by `photo_url`. -/
structure EmployeeView where
  id : Nat
  name : String
  email : String
  department : String
  role : String
  roll_number : String
  photo_url : Option String
  created_at : Nat
deriving DecidableEq, Repr

/-- Source `row_to_employee_dict`. -/
def row_to_employee_dict (row : EmployeeRow) : EmployeeView :=
  { id := row.id
    name := row.name
    email := row.email
    department := row.department
    role := row.role
    roll_number := row.roll_number
    photo_url := photoUrlOf row.photo_path
    created_at := row.created_at }

/-- An uploaded file part of a multipart request; only the filename is
relevant to control flow (`photo.filename`). -/
structure FilePart where
  filename : String
deriving DecidableEq, Repr

/-- Request to `POST /api/employees`: the five optional form fields
(`request.form.get` returns `None` when absent), the optional `photo`
file part, and the integer clock value `int(time.time())`. -/
structure CreateRequest where
  name : Option String
  email : Option String
  department : Option String
  role : Option String
  roll_number : Option String
  photo : Option FilePart
  timestamp : Nat
deriving DecidableEq, Repr

/-- Responses of `create_employee`, one constructor per `jsonify` exit. -/
inductive CreateResp where
  | badRequest (message : String)
  | unsupported (message : String)
  | conflict (message : String)
  | created (employee_id : Nat) (photo_url : Option String)
  | serverError (message : String)
deriving DecidableEq, Repr

/-- HTTP status attached to each `create_employee` response. -/
def CreateResp.status : CreateResp → Nat
  | .badRequest _ => 400
  | .unsupported _ => 415
  | .conflict _ => 409
  | .created _ _ => 201
  | .serverError _ => 500

/-- Python `(request.form.get(k) or "").strip()`: a missing field and an
empty field both normalise to `""`, then whitespace is trimmed. -/
def formField (v : Option String) : String :=
  pyStrip (v.getD "")

/-- The validation dictionary of `create_employee`, in its insertion
order: `{"name": name, ..., "roll_number": roll_number}.items()`. -/
def requiredItems (name email department role roll_number : String) :
    List (String × String) :=
  [("name", name), ("email", email), ("department", department),
   ("role", role), ("roll_number", roll_number)]

/-- Source `missing = [k for k, v in {...}.items() if not v]`. -/
def missingOf (name email department role roll_number : String) : List String :=
  ((requiredItems name email department role roll_number).filter
    (fun kv => kv.2 = "")).map Prod.fst

/-- The `missing` list computed from a raw request. -/
def missingFieldsOf (req : CreateRequest) : List String :=
  missingOf (formField req.name) (formField req.email) (formField req.department)
    (formField req.role) (formField req.roll_number)

/-- SQL `INSERT INTO employees ... VALUES (?,?,?,?,?,?)` under the
`UNIQUE` constraint on `roll_number`: a duplicate raises
`sqlite3.IntegrityError`, modelled as `Except.error` carrying the
sqlite message; otherwise the row is appended with the autoincrement
id and `cur.lastrowid` is returned. -/
def insertEmployee (st : ServerState) (name email department role roll_number : String)
    (photo_path : Option String) (created : Nat) : Except String (Nat × ServerState) :=
  if st.employees.any (fun e => e.roll_number = roll_number) then
    Except.error "UNIQUE constraint failed: employees.roll_number"
  else
    Except.ok (st.nextEmpId,
      { st with
        employees := st.employees ++
          [{ id := st.nextEmpId, name := name, email := email, department := department,
             role := role, roll_number := roll_number, photo_path := photo_path,
             created_at := created }]
        nextEmpId := st.nextEmpId + 1 })

/-- Test that `needle` is a leading segment of `hay` (character lists). -/
def leadsChars : List Char → List Char → Bool
  | [], _ => true
  | _ :: _, [] => false
  | c :: cs, d :: ds => c = d && leadsChars cs ds

/-- Python `needle in hay` on strings, as character lists. -/
def hasInfixChars (needle : List Char) : List Char → Bool
  | [] => leadsChars needle []
  | d :: ds => leadsChars needle (d :: ds) || hasInfixChars needle ds

/-- Python `str.upper()` on the characters of a string. -/
def upperChars (l : List Char) : List Char := l.map Char.toUpper

/-- Message produced by the `sqlite3.IntegrityError` handler:
`"Roll number already exists." if "UNIQUE" in str(ie).upper() else str(ie)`. -/
def integrityMessage (ie : String) : String :=
  if hasInfixChars "UNIQUE".toList (upperChars ie.toList) then "Roll number already exists."
  else ie

/-- Tail of `create_employee` from the `# Insert into DB` comment on:
the INSERT plus the success response and the IntegrityError handler. -/
def finishInsert (st : ServerState) (name email department role roll_number : String)
    (photo_path : Option String) (created : Nat) : CreateResp × ServerState :=
  match insertEmployee st name email department role roll_number photo_path created with
  | Except.ok (emp_id, st2) => (CreateResp.created emp_id (photoUrlOf photo_path), st2)
  | Except.error ie => (CreateResp.conflict (integrityMessage ie), st)

/-- Python `photo.save(save_path)`: the file now exists on disk. -/
def saveFile (files : List String) (save_path : String) : List String :=
  if save_path ∈ files then files else save_path :: files

/-- Python truthiness test `photo and photo.filename`: a photo part is
handled only when present with a non-empty filename. -/
def hasPhotoPart (req : CreateRequest) : Bool :=
  match req.photo with
  | some p => p.filename ≠ ""
  | none => false

/-- The filename of the photo part (only read when `hasPhotoPart`). -/
def photoFilename (req : CreateRequest) : String :=
  match req.photo with
  | some p => p.filename
  | none => ""

/-- Source handler `create_employee` (`POST /api/employees`). -/
def create_employee (req : CreateRequest) (st : ServerState) : CreateResp × ServerState :=
  let name := formField req.name
  let email := formField req.email
  let department := formField req.department
  let role := formField req.role
  let roll_number := formField req.roll_number
  let missing := missingOf name email department role roll_number
  if missing ≠ [] then
    (CreateResp.badRequest ("Missing fields: " ++ String.intercalate ", " missing), st)
  else if hasPhotoPart req then
    if allowed_file (photoFilename req) = false then
      (CreateResp.unsupported "Unsupported image type", st)
    else
      let ext := lowerStr (afterLastDot (photoFilename req))
      let fname := secure_filename (roll_number ++ "_" ++ toString req.timestamp ++ "." ++ ext)
      let save_path := UPLOAD_DIR_STR ++ "/" ++ fname
      let st1 := { st with files := saveFile st.files save_path }
      finishInsert st1 name email department role roll_number (some save_path) req.timestamp
  else
    finishInsert st name email department role roll_number none req.timestamp

/-- Ordering used by `ORDER BY id DESC`: later rows have smaller ids. -/
def empDescOrder (a b : EmployeeRow) : Prop := b.id ≤ a.id

instance : DecidableRel empDescOrder := fun a b => Nat.decLe b.id a.id

instance : IsTotal EmployeeRow empDescOrder := ⟨fun a b => Nat.le_total b.id a.id⟩

instance : IsTrans EmployeeRow empDescOrder := ⟨fun _ _ _ h1 h2 => Nat.le_trans h2 h1⟩

/-- SQL `SELECT ... FROM employees ORDER BY id DESC`. -/
def selectAllDesc (st : ServerState) : List EmployeeRow :=
  List.insertionSort empDescOrder st.employees

/-- Response of `list_employees`: always `ok = true` with the shaped rows. -/
structure ListResp where
  ok : Bool
  employees : List EmployeeView
deriving DecidableEq, Repr

/-- Source handler `list_employees` (`GET /api/employees`): all rows
ordered by id descending, each shaped by `row_to_employee_dict`; the
second component is the HTTP status, always 200. -/
def list_employees (st : ServerState) : ListResp × Nat :=
  ({ ok := true, employees := (selectAllDesc st).map row_to_employee_dict }, 200)

/-- Responses of `delete_employee`. -/
inductive DeleteResp where
  | notFound (message : String)
  | deleted (message : String)
deriving DecidableEq, Repr

/-- HTTP status attached to each `delete_employee` response. -/
def DeleteResp.status : DeleteResp → Nat
  | .notFound _ => 404
  | .deleted _ => 200

/-- Best-effort removal step of `delete_employee`: `if photo_path and
os.path.exists(photo_path): try os.remove(photo_path) except: pass`.
`removeFails` models `os.remove` raising; the exception is swallowed,
leaving the filesystem unchanged. -/
def removePhotoFile (removeFails : Bool) (files : List String) (photo_path : Option String) :
    List String :=
  match photo_path with
  | some p =>
    if p ≠ "" ∧ p ∈ files then (if removeFails then files else files.erase p) else files
  | none => files

/-- Source handler `delete_employee` (`DELETE /api/employees/<id>`):
look up `photo_path` by id; 404 when absent; otherwise delete the row
and best-effort remove the recorded photo file. -/
def delete_employee (emp_id : Nat) (removeFails : Bool) (st : ServerState) :
    DeleteResp × ServerState :=
  match st.employees.find? (fun e => e.id = emp_id) with
  | none => (DeleteResp.notFound "Employee not found", st)
  | some row =>
    (DeleteResp.deleted "Employee deleted",
     { st with
       employees := st.employees.filter (fun e => e.id ≠ emp_id),
       files := removePhotoFile removeFails st.files row.photo_path })

/-- The `key` value extracted by `check_key`:
`data = request.get_json(silent=True) or {}; key = data.get("key", "")`.
A missing, malformed or non-JSON body parses to `none` and contributes
the empty dictionary. -/
def checkKeyOf (body : Option (List (String × String))) : String :=
  ((body.getD []).lookup "key").getD ""

/-- Source handler `check_key` (`POST /api/check-key`): existence check
`SELECT 1 FROM admin WHERE adminpass=? LIMIT 1`, response `ok = bool(row)`;
the second component is the HTTP status, always 200. -/
def check_key (body : Option (List (String × String))) (st : ServerState) : Bool × Nat :=
  let key := checkKeyOf body
  (st.admin.any (fun a => a.adminpass = key), 200)

/-- Responses of `login`. -/
inductive LoginResp where
  | success
  | fail
  | error (message : String)
deriving DecidableEq, Repr

/-- HTTP status attached to each `login` response (`jsonify(...), 500`
only in the exception handler). -/
def LoginResp.status : LoginResp → Nat
  | .success => 200
  | .fail => 200
  | .error _ => 500

/-- Source handler `login` (`POST /login`): form fields default to `""`;
exact-match SELECT on username and password; the `except` branch turns
a storage failure (modelled by `dbFailure`) into a 500 error response. -/
def login (dbFailure : Option String) (username password : Option String)
    (st : ServerState) : LoginResp :=
  let u := username.getD ""
  let p := password.getD ""
  match dbFailure with
  | some e => LoginResp.error e
  | none =>
    if st.users.any (fun r => r.username = u ∧ r.password = p) then LoginResp.success
    else LoginResp.fail

/-- A table on disk before `init_db` is known to have run: its rows plus
the autoincrement counter. -/
structure DiskTable (ρ : Type) where
  rows : List ρ
  nextId : Nat
deriving DecidableEq

/-- The database file as `init_db` sees it: each table either absent or
present with its contents. -/
structure DBFile where
  users : Option (DiskTable UserRow)
  admin : Option (DiskTable AdminRow)
  employees : Option (DiskTable EmployeeRow)
deriving DecidableEq

/-- SQL `CREATE TABLE IF NOT EXISTS`: an absent table becomes an empty
one with a fresh autoincrement counter; a present table is unchanged. -/
def createIfAbsent {ρ : Type} (t : Option (DiskTable ρ)) : DiskTable ρ :=
  t.getD { rows := [], nextId := 1 }

/-- Seeding block of `init_db` for `users`: `if user_count == 0: INSERT
INTO users (username, password) VALUES ("hidan", "killer")`. -/
def seedUsers (users : DiskTable UserRow) : DiskTable UserRow :=
  if users.rows.length = 0 then
    { rows := users.rows ++ [{ id := users.nextId, username := "hidan", password := "killer" }],
      nextId := users.nextId + 1 }
  else users

/-- Seeding block of `init_db` for `admin`: `if admin_count == 0: INSERT
INTO admin (adminpass) VALUES ("ceo@2025")`. -/
def seedAdmin (admin : DiskTable AdminRow) : DiskTable AdminRow :=
  if admin.rows.length = 0 then
    { rows := admin.rows ++ [{ id := admin.nextId, adminpass := "ceo@2025" }],
      nextId := admin.nextId + 1 }
  else admin

/-- Source `init_db`: create the three tables if absent, then seed the
demo user when `users` is empty and the admin key when `admin` is empty. -/
def init_db (db : DBFile) : DBFile :=
  { users := some (seedUsers (createIfAbsent db.users)),
    admin := some (seedAdmin (createIfAbsent db.admin)),
    employees := some (createIfAbsent db.employees) }

/-- Paths for the serving endpoints are modelled as lists of segments
relative to the filesystem root. Stand-in for `APP_DIR` (the directory
containing `server.py`). -/
def APP_DIR_SEGS : List String := ["srv", "app"]

/-- Stand-in for `UPLOAD_DIR = APP_DIR / "uploads"` in segment form. -/
def UPLOAD_DIR_SEGS : List String := APP_DIR_SEGS ++ ["uploads"]

/-- One step of path resolution by the operating system when the file
is opened: `.` and empty segments vanish, `..` removes the previous
segment. -/
def resolveStep (acc : List String) (s : String) : List String :=
  if s = "." ∨ s = "" then acc
  else if s = ".." then acc.dropLast
  else acc ++ [s]

/-- Resolution of a whole path by the operating system. -/
def resolveSegs (p : List String) : List String :=
  p.foldl resolveStep []

/-- Source handler `static_files` (`GET /<path:path>`): `target =
APP_DIR / path; if target.exists(): return send_file(target)`. The
filesystem is the list of (resolved) existing paths; the result is the
resolved path of the file served, or `none` for the 404 branch.
`pathlib`'s `/` performs no normalisation, so `..` segments reach the
operating system. -/
def static_files (fs : List (List String)) (path : List String) : Option (List String) :=
  let target := resolveSegs (APP_DIR_SEGS ++ path)
  if target ∈ fs then some target else none

/-- Accumulator step of `posixpath.normpath` on a relative path: `.`
and empty segments vanish; `..` cancels a previous real segment but is
kept when there is nothing left to cancel. -/
def normStep (acc : List String) (s : String) : List String :=
  if s = "." ∨ s = "" then acc
  else if s = ".." then
    if acc = [] ∨ acc.getLast? = some ".." then acc ++ [".."]
    else acc.dropLast
  else acc ++ [s]

/-- Python `posixpath.normpath` on a relative path, in segment form. -/
def normSegs (p : List String) : List String :=
  p.foldl normStep []

/-- Werkzeug `safe_join(directory, filename)` as used by
`send_from_directory`: normalise the filename and reject it when it
escapes upward (normal form `..` or starting with `../`); otherwise
join it under the directory. -/
def safe_join (directory : List String) (filename : List String) : Option (List String) :=
  if (normSegs filename).head? = some ".." then none
  else some (directory ++ normSegs filename)

/-- Source handler `get_upload` (`GET /uploads/<path:filename>`):
`send_from_directory(UPLOAD_DIR, filename)`, which serves
`safe_join(UPLOAD_DIR, filename)` when it exists and is accepted. -/
def get_upload (fs : List (List String)) (filename : List String) : Option (List String) :=
  match safe_join UPLOAD_DIR_SEGS filename with
  | none => none
  | some p => if resolveSegs p ∈ fs then some (resolveSegs p) else none

/-- Fixture: the state of a freshly initialised database (no employees,
seeded users and admin key, empty upload directory). -/
def freshState : ServerState :=
  { users := [{ id := 1, username := "hidan", password := "killer" }],
    admin := [{ id := 1, adminpass := "ceo@2025" }],
    employees := [], nextEmpId := 1, files := [] }

/-- Fixture: a fully populated create request without photo. -/
def reqFull : CreateRequest :=
  { name := some "Alice", email := some "alice@example.com", department := some "QA",
    role := some "Tester", roll_number := some "R42", photo := none, timestamp := 1000 }

/-- Fixture: a create request with `name` absent and `email` whitespace-only. -/
def reqMissing : CreateRequest :=
  { name := none, email := some "   ", department := some "QA",
    role := some "Tester", roll_number := some "R42", photo := none, timestamp := 1000 }

/-- Fixture: a create request with a disallowed photo extension. -/
def reqBadPhoto : CreateRequest :=
  { reqFull with photo := some { filename := "payload.txt" } }

/-- Fixture: a create request whose photo part has an empty filename. -/
def reqEmptyPhoto : CreateRequest :=
  { reqFull with photo := some { filename := "" } }

/-- Fixture: an employee row without photo. -/
def rowOne : EmployeeRow :=
  { id := 1, name := "A", email := "a@x", department := "D", role := "R",
    roll_number := "r1", photo_path := none, created_at := 10 }

/-- Fixture: an employee row with a recorded photo file. -/
def rowTwo : EmployeeRow :=
  { id := 2, name := "B", email := "b@x", department := "D", role := "R",
    roll_number := "r2", photo_path := some "/srv/app/uploads/r2_11.png",
    created_at := 11 }

/-- Fixture: a state with two employee rows, one of them with a photo. -/
def twoRowState : ServerState :=
  { users := [], admin := [], employees := [rowOne, rowTwo],
    nextEmpId := 3, files := ["/srv/app/uploads/r2_11.png"] }

/-- A request whose photo part, if handled at all, has an allowed
extension: the complement of the 415 branch. -/
def photoAccepted (req : CreateRequest) : Prop :=
  ∀ p, req.photo = some p → p.filename ≠ "" → allowed_file p.filename = true

/-- Uniqueness of `roll_number` across the employee table. -/
def RollUnique (st : ServerState) : Prop :=
  (st.employees.map EmployeeRow.roll_number).Nodup

/-- States reachable by the server: the employee table starts empty
(a fresh database) and evolves only through the create and delete
handlers. -/
inductive Reachable : ServerState → Prop
  | init (st : ServerState) (h : st.employees = []) : Reachable st
  | createStep (req : CreateRequest) (st : ServerState) (hst : Reachable st) :
      Reachable (create_employee req st).2
  | deleteStep (emp_id : Nat) (rf : Bool) (st : ServerState) (hst : Reachable st) :
      Reachable (delete_employee emp_id rf st).2

/-- Every recorded `photo_path` is a non-empty string (it is written as
the upload directory joined with a generated filename). -/
def PhotoPathsNonEmpty (st : ServerState) : Prop :=
  ∀ r ∈ st.employees, r.photo_path ≠ some ""

/-- A path segment that survives normalisation untouched: not `..`,
not `.`, not empty. -/
def CleanSeg (s : String) : Prop := s ≠ ".." ∧ s ≠ "." ∧ s ≠ ""

/-- Shape of `posixpath.normpath` output on a relative path: a (possibly
empty) run of leading `..` segments followed by clean segments. -/
def NormShape (l : List String) : Prop :=
  ∃ k rest, l = List.replicate k ".." ++ rest ∧ ∀ s ∈ rest, CleanSeg s

/-! Theorems. -/

theorem seedUsers_rows_ne_nil (t : DiskTable UserRow) : (seedUsers t).rows ≠ [] := by
  unfold seedUsers
  split
  · simp
  · next h => simpa [List.length_eq_zero] using h

theorem seedAdmin_rows_ne_nil (t : DiskTable AdminRow) : (seedAdmin t).rows ≠ [] := by
  unfold seedAdmin
  split
  · simp
  · next h => simpa [List.length_eq_zero] using h

theorem seedUsers_of_ne_nil (t : DiskTable UserRow) (h : t.rows ≠ []) : seedUsers t = t := by
  unfold seedUsers
  rw [if_neg]
  simpa [List.length_eq_zero] using h

theorem seedAdmin_of_ne_nil (t : DiskTable AdminRow) (h : t.rows ≠ []) : seedAdmin t = t := by
  unfold seedAdmin
  rw [if_neg]
  simpa [List.length_eq_zero] using h

/-- C9: `init_db` is idempotent: a second run changes nothing; after a
run all three tables exist; a `users` (resp. `admin`) table that started
empty or absent holds exactly the single seeded demo account (resp. the
single seeded key), and a second run inserts no further seed rows
(covered by idempotence). -/
theorem init_db_idempotent_spec (db : DBFile) :
    init_db (init_db db) = init_db db ∧
    ((init_db db).users.isSome ∧ (init_db db).admin.isSome ∧ (init_db db).employees.isSome) ∧
    ((createIfAbsent db.users).rows = [] →
      (init_db db).users = some
        { rows := [{ id := (createIfAbsent db.users).nextId, username := "hidan",
                     password := "killer" }],
          nextId := (createIfAbsent db.users).nextId + 1 }) ∧
    ((createIfAbsent db.admin).rows = [] →
      (init_db db).admin = some
        { rows := [{ id := (createIfAbsent db.admin).nextId, adminpass := "ceo@2025" }],
          nextId := (createIfAbsent db.admin).nextId + 1 }) := by
  refine ⟨?_, ⟨rfl, rfl, rfl⟩, ?_, ?_⟩
  · show init_db (init_db db) = init_db db
    unfold init_db
    simp only [createIfAbsent, Option.getD_some]
    rw [seedUsers_of_ne_nil _ (seedUsers_rows_ne_nil _),
      seedAdmin_of_ne_nil _ (seedAdmin_rows_ne_nil _)]
  · intro h
    simp [init_db, seedUsers, h]
  · intro h
    simp [init_db, seedAdmin, h]

/-- C7: `check_key` never fails: every body (including a missing or
malformed one, which parses to `none` and is treated as the empty-string
key) yields HTTP 200, with `ok = true` exactly when some admin row's
`adminpass` equals the supplied key. -/
theorem check_key_spec (st : ServerState) :
    (∀ body, (check_key body st).2 = 200 ∧
      ((check_key body st).1 = true ↔ ∃ a ∈ st.admin, a.adminpass = checkKeyOf body)) ∧
    checkKeyOf none = "" ∧
    check_key none st = check_key (some [("key", "")]) st := by
  refine ⟨fun body => ⟨rfl, ?_⟩, rfl, rfl⟩
  simp [check_key, List.any_eq_true]

/-- C8: `login` returns HTTP 200 with `success` exactly when some user
row matches both form fields (each defaulting to the empty string when
absent) by plaintext equality, HTTP 200 with `fail` otherwise, and HTTP
500 with an `error` message only when the storage layer fails. -/
theorem login_spec (username password : Option String) (st : ServerState) :
    (login none username password st).status = 200 ∧
    (login none username password st = LoginResp.success ↔
      ∃ r ∈ st.users, r.username = username.getD "" ∧ r.password = password.getD "") ∧
    ((¬ ∃ r ∈ st.users, r.username = username.getD "" ∧ r.password = password.getD "") →
      login none username password st = LoginResp.fail) ∧
    (∀ m, login (some m) username password st = LoginResp.error m ∧
      (login (some m) username password st).status = 500) := by
  have heq : login none username password st =
      if st.users.any
        (fun r => r.username = username.getD "" ∧ r.password = password.getD "")
      then LoginResp.success else LoginResp.fail := rfl
  refine ⟨?_, ?_, ?_, fun m => ⟨rfl, rfl⟩⟩
  · rw [heq]
    split <;> rfl
  · rw [heq]
    by_cases h : ∃ r ∈ st.users, r.username = username.getD "" ∧ r.password = password.getD ""
    · rw [if_pos (by simpa [List.any_eq_true] using h)]
      exact iff_of_true rfl h
    · rw [if_neg (by simpa [List.any_eq_true] using h)]
      exact iff_of_false (by simp) h
  · intro h
    rw [heq, if_neg (by simpa [List.any_eq_true] using h)]

theorem create_missing_eq (req : CreateRequest) (st : ServerState)
    (h : missingFieldsOf req ≠ []) :
    create_employee req st =
      (CreateResp.badRequest
        ("Missing fields: " ++ String.intercalate ", " (missingFieldsOf req)), st) := by
  have h' : missingOf (formField req.name) (formField req.email) (formField req.department)
      (formField req.role) (formField req.roll_number) ≠ [] := h
  simp only [create_employee]
  rw [if_pos h']
  rfl

theorem create_photo_none (req : CreateRequest) (st : ServerState)
    (h : missingFieldsOf req = []) (hp : req.photo = none) :
    create_employee req st =
      finishInsert st (formField req.name) (formField req.email) (formField req.department)
        (formField req.role) (formField req.roll_number) none req.timestamp := by
  have h' : missingOf (formField req.name) (formField req.email) (formField req.department)
      (formField req.role) (formField req.roll_number) = [] := h
  have hpp : hasPhotoPart req = false := by simp [hasPhotoPart, hp]
  simp only [create_employee]
  rw [if_neg (not_not_intro h')]
  simp [hpp]

theorem create_photo_empty (req : CreateRequest) (st : ServerState) (p : FilePart)
    (h : missingFieldsOf req = []) (hp : req.photo = some p) (hf : p.filename = "") :
    create_employee req st =
      finishInsert st (formField req.name) (formField req.email) (formField req.department)
        (formField req.role) (formField req.roll_number) none req.timestamp := by
  have h' : missingOf (formField req.name) (formField req.email) (formField req.department)
      (formField req.role) (formField req.roll_number) = [] := h
  have hpp : hasPhotoPart req = false := by simp [hasPhotoPart, hp, hf]
  simp only [create_employee]
  rw [if_neg (not_not_intro h')]
  simp [hpp]

theorem create_photo_bad (req : CreateRequest) (st : ServerState) (p : FilePart)
    (h : missingFieldsOf req = []) (hp : req.photo = some p) (hf : p.filename ≠ "")
    (hbad : allowed_file p.filename = false) :
    create_employee req st = (CreateResp.unsupported "Unsupported image type", st) := by
  have h' : missingOf (formField req.name) (formField req.email) (formField req.department)
      (formField req.role) (formField req.roll_number) = [] := h
  have hpp : hasPhotoPart req = true := by simp [hasPhotoPart, hp, hf]
  have hfn : photoFilename req = p.filename := by simp [photoFilename, hp]
  simp only [create_employee]
  rw [if_neg (not_not_intro h')]
  simp [hpp, hfn, hbad]

theorem create_photo_good (req : CreateRequest) (st : ServerState) (p : FilePart)
    (h : missingFieldsOf req = []) (hp : req.photo = some p) (hf : p.filename ≠ "")
    (ha : allowed_file p.filename = true) :
    create_employee req st =
      finishInsert
        { st with files := saveFile st.files (UPLOAD_DIR_STR ++ "/" ++ secure_filename
            (formField req.roll_number ++ "_" ++ toString req.timestamp ++ "." ++
              lowerStr (afterLastDot p.filename))) }
        (formField req.name) (formField req.email) (formField req.department)
        (formField req.role) (formField req.roll_number)
        (some (UPLOAD_DIR_STR ++ "/" ++ secure_filename
            (formField req.roll_number ++ "_" ++ toString req.timestamp ++ "." ++
              lowerStr (afterLastDot p.filename))))
        req.timestamp := by
  have h' : missingOf (formField req.name) (formField req.email) (formField req.department)
      (formField req.role) (formField req.roll_number) = [] := h
  have hpp : hasPhotoPart req = true := by simp [hasPhotoPart, hp, hf]
  have hfn : photoFilename req = p.filename := by simp [photoFilename, hp]
  simp only [create_employee]
  rw [if_neg (not_not_intro h')]
  simp [hpp, hfn, ha]

theorem finishInsert_dup (st : ServerState) (name email department role roll : String)
    (pp : Option String) (created : Nat)
    (hdup : ∃ e ∈ st.employees, e.roll_number = roll) :
    finishInsert st name email department role roll pp created =
      (CreateResp.conflict "Roll number already exists.", st) := by
  unfold finishInsert insertEmployee
  rw [if_pos (by simpa [List.any_eq_true] using hdup)]
  have : integrityMessage "UNIQUE constraint failed: employees.roll_number" =
      "Roll number already exists." := by decide
  simp [this]

theorem finishInsert_fresh (st : ServerState) (name email department role roll : String)
    (pp : Option String) (created : Nat)
    (hfresh : ∀ e ∈ st.employees, e.roll_number ≠ roll) :
    finishInsert st name email department role roll pp created =
      (CreateResp.created st.nextEmpId (photoUrlOf pp),
       { st with
         employees := st.employees ++
           [{ id := st.nextEmpId, name := name, email := email, department := department,
              role := role, roll_number := roll, photo_path := pp, created_at := created }],
         nextEmpId := st.nextEmpId + 1 }) := by
  unfold finishInsert insertEmployee
  rw [if_neg (by simpa [List.any_eq_true] using hfresh)]

/-- C3: a create request with at least one required field absent or
whitespace-only returns HTTP 400 whose message lists exactly the set of
missing field names, and the state (rows and files alike) is unchanged:
the failure happens before any side effect. -/
theorem missing_fields_spec (req : CreateRequest) (st : ServerState)
    (h : missingFieldsOf req ≠ []) :
    create_employee req st =
      (CreateResp.badRequest
        ("Missing fields: " ++ String.intercalate ", " (missingFieldsOf req)), st) ∧
    (create_employee req st).1.status = 400 ∧
    (∀ f, f ∈ missingFieldsOf req ↔
      ((f = "name" ∧ formField req.name = "") ∨
       (f = "email" ∧ formField req.email = "") ∨
       (f = "department" ∧ formField req.department = "") ∨
       (f = "role" ∧ formField req.role = "") ∨
       (f = "roll_number" ∧ formField req.roll_number = ""))) := by
  refine ⟨create_missing_eq req st h, ?_, ?_⟩
  · rw [create_missing_eq req st h]
    rfl
  · intro f
    simp only [missingFieldsOf, missingOf, requiredItems, List.mem_map, List.mem_filter]
    constructor
    · rintro ⟨⟨a, b⟩, ⟨hmem, hval⟩, rfl⟩
      simp only [List.mem_cons, List.not_mem_nil, or_false] at hmem
      simp only [decide_eq_true_eq] at hval
      rcases hmem with h1 | h1 | h1 | h1 | h1 <;>
        · injection h1 with ha hb
          subst ha
          subst hb
          simp [hval]
    · rintro (⟨rfl, hv⟩ | ⟨rfl, hv⟩ | ⟨rfl, hv⟩ | ⟨rfl, hv⟩ | ⟨rfl, hv⟩)
      · exact ⟨("name", formField req.name), ⟨by simp, by simp [hv]⟩, rfl⟩
      · exact ⟨("email", formField req.email), ⟨by simp, by simp [hv]⟩, rfl⟩
      · exact ⟨("department", formField req.department), ⟨by simp, by simp [hv]⟩, rfl⟩
      · exact ⟨("role", formField req.role), ⟨by simp, by simp [hv]⟩, rfl⟩
      · exact ⟨("roll_number", formField req.roll_number), ⟨by simp, by simp [hv]⟩, rfl⟩

/-- Witness for C3: a request with `name` absent and `email`
whitespace-only, against the fresh state. -/
theorem missing_fields_witness :
    missingFieldsOf reqMissing ≠ [] ∧
    (create_employee reqMissing freshState =
      (CreateResp.badRequest
        ("Missing fields: " ++ String.intercalate ", " (missingFieldsOf reqMissing)),
       freshState) ∧
     (create_employee reqMissing freshState).1.status = 400 ∧
     (∀ f, f ∈ missingFieldsOf reqMissing ↔
       ((f = "name" ∧ formField reqMissing.name = "") ∨
        (f = "email" ∧ formField reqMissing.email = "") ∨
        (f = "department" ∧ formField reqMissing.department = "") ∨
        (f = "role" ∧ formField reqMissing.role = "") ∨
        (f = "roll_number" ∧ formField reqMissing.roll_number = "")))) :=
  ⟨by decide, missing_fields_spec reqMissing freshState (by decide)⟩

/-- C4: a create request with all required fields present and a photo
whose extension (lower-cased part after the last dot) is outside the
allow-set returns HTTP 415 and performs no storage write: the state
(files and rows) is returned unchanged. -/
theorem photo_type_spec (req : CreateRequest) (st : ServerState) (p : FilePart)
    (h : missingFieldsOf req = []) (hp : req.photo = some p) (hf : p.filename ≠ "")
    (hext : lowerStr (afterLastDot p.filename) ∉ ALLOWED_EXTENSIONS) :
    create_employee req st = (CreateResp.unsupported "Unsupported image type", st) ∧
    (create_employee req st).1.status = 415 ∧
    allowed_file p.filename = false := by
  have hbad : allowed_file p.filename = false := by
    simp only [allowed_file, Bool.and_eq_false_iff]
    right
    simpa using hext
  refine ⟨create_photo_bad req st p h hp hf hbad, ?_, hbad⟩
  rw [create_photo_bad req st p h hp hf hbad]
  rfl

/-- Witness for C4: a photo named `payload.txt` against the fresh state. -/
theorem photo_type_witness :
    (missingFieldsOf reqBadPhoto = [] ∧
     reqBadPhoto.photo = some { filename := "payload.txt" } ∧
     ("payload.txt" : String) ≠ "" ∧
     lowerStr (afterLastDot ("payload.txt" : String)) ∉ ALLOWED_EXTENSIONS) ∧
    (create_employee reqBadPhoto freshState =
      (CreateResp.unsupported "Unsupported image type", freshState) ∧
     (create_employee reqBadPhoto freshState).1.status = 415 ∧
     allowed_file ("payload.txt" : String) = false) :=
  ⟨⟨by decide, rfl, by decide, by decide⟩,
   photo_type_spec reqBadPhoto freshState { filename := "payload.txt" }
     (by decide) rfl (by decide) (by decide)⟩

/-- C10: a create request whose photo part is present but carries an
empty filename is treated exactly as a request with no photo part: no
file is written, the inserted row has a null `photo_path`, and the
success response carries `photo_url = none`. -/
theorem empty_filename_spec (req : CreateRequest) (st : ServerState) (p : FilePart)
    (hp : req.photo = some p) (hf : p.filename = "")
    (h : missingFieldsOf req = [])
    (hfresh : ∀ e ∈ st.employees, e.roll_number ≠ formField req.roll_number) :
    create_employee req st = create_employee { req with photo := none } st ∧
    (create_employee req st).2.files = st.files ∧
    (create_employee req st).1 = CreateResp.created st.nextEmpId none ∧
    (create_employee req st).2.employees = st.employees ++
      [{ id := st.nextEmpId, name := formField req.name, email := formField req.email,
         department := formField req.department, role := formField req.role,
         roll_number := formField req.roll_number, photo_path := none,
         created_at := req.timestamp }] := by
  have h2 : missingFieldsOf { req with photo := none } = [] := h
  have e1 := create_photo_empty req st p h hp hf
  have e2 := create_photo_none { req with photo := none } st h2 rfl
  rw [e1, e2, finishInsert_fresh st _ _ _ _ _ _ _ hfresh]
  exact ⟨rfl, rfl, rfl, rfl⟩

/-- Witness for C10: a photo part with empty filename against the fresh
state. -/
theorem empty_filename_witness :
    (reqEmptyPhoto.photo = some { filename := "" } ∧
     missingFieldsOf reqEmptyPhoto = [] ∧
     (∀ e ∈ freshState.employees, e.roll_number ≠ formField reqEmptyPhoto.roll_number)) ∧
    (create_employee reqEmptyPhoto freshState =
      create_employee { reqEmptyPhoto with photo := none } freshState ∧
     (create_employee reqEmptyPhoto freshState).2.files = freshState.files ∧
     (create_employee reqEmptyPhoto freshState).1 =
       CreateResp.created freshState.nextEmpId none ∧
     (create_employee reqEmptyPhoto freshState).2.employees = freshState.employees ++
       [{ id := freshState.nextEmpId, name := formField reqEmptyPhoto.name,
          email := formField reqEmptyPhoto.email,
          department := formField reqEmptyPhoto.department,
          role := formField reqEmptyPhoto.role,
          roll_number := formField reqEmptyPhoto.roll_number, photo_path := none,
          created_at := reqEmptyPhoto.timestamp }]) :=
  ⟨⟨rfl, by decide, by decide⟩,
   empty_filename_spec reqEmptyPhoto freshState { filename := "" } rfl rfl
     (by decide) (by decide)⟩

theorem create_valid_eq_finish (req : CreateRequest) (st : ServerState)
    (h1 : missingFieldsOf req = []) (h2 : photoAccepted req) :
    ∃ (pp : Option String) (fl : List String),
      (pp = none ∨ ∃ f, pp = some (UPLOAD_DIR_STR ++ "/" ++ f)) ∧
      create_employee req st =
        finishInsert { st with files := fl } (formField req.name) (formField req.email)
          (formField req.department) (formField req.role) (formField req.roll_number)
          pp req.timestamp := by
  cases hp : req.photo with
  | none =>
    exact ⟨none, st.files, Or.inl rfl, create_photo_none req st h1 hp⟩
  | some p =>
    by_cases hf : p.filename = ""
    · exact ⟨none, st.files, Or.inl rfl, create_photo_empty req st p h1 hp hf⟩
    · have ha : allowed_file p.filename = true := h2 p hp hf
      exact ⟨some (UPLOAD_DIR_STR ++ "/" ++ secure_filename
          (formField req.roll_number ++ "_" ++ toString req.timestamp ++ "." ++
            lowerStr (afterLastDot p.filename))),
        saveFile st.files (UPLOAD_DIR_STR ++ "/" ++ secure_filename
          (formField req.roll_number ++ "_" ++ toString req.timestamp ++ "." ++
            lowerStr (afterLastDot p.filename))),
        Or.inr ⟨_, rfl⟩,
        create_photo_good req st p h1 hp hf ha⟩

theorem finishInsert_employees_cases (st : ServerState)
    (name email department role roll : String) (pp : Option String) (created : Nat) :
    (finishInsert st name email department role roll pp created).2.employees = st.employees ∨
    ∃ row, (finishInsert st name email department role roll pp created).2.employees =
        st.employees ++ [row] ∧ ∀ e ∈ st.employees, e.roll_number ≠ row.roll_number := by
  by_cases hdup : ∃ e ∈ st.employees, e.roll_number = roll
  · left
    rw [finishInsert_dup st name email department role roll pp created hdup]
  · right
    push_neg at hdup
    rw [finishInsert_fresh st name email department role roll pp created hdup]
    exact ⟨_, rfl, hdup⟩

theorem create_employees_cases (req : CreateRequest) (st : ServerState) :
    (create_employee req st).2.employees = st.employees ∨
    ∃ row, (create_employee req st).2.employees = st.employees ++ [row] ∧
      ∀ e ∈ st.employees, e.roll_number ≠ row.roll_number := by
  by_cases h1 : missingFieldsOf req = []
  · by_cases hacc : photoAccepted req
    · obtain ⟨pp, fl, _, hc⟩ := create_valid_eq_finish req st h1 hacc
      rw [hc]
      exact finishInsert_employees_cases { st with files := fl } _ _ _ _ _ pp req.timestamp
    · left
      simp only [photoAccepted, not_forall] at hacc
      obtain ⟨p, hp, hf, ha⟩ := hacc
      have hbad : allowed_file p.filename = false := by
        cases hv : allowed_file p.filename
        · rfl
        · exact absurd hv ha
      rw [create_photo_bad req st p h1 hp hf hbad]
  · left
    rw [create_missing_eq req st h1]

theorem delete_state_employees (emp_id : Nat) (rf : Bool) (st : ServerState) :
    (delete_employee emp_id rf st).2.employees = st.employees ∨
    (delete_employee emp_id rf st).2.employees =
      st.employees.filter (fun e => e.id ≠ emp_id) := by
  unfold delete_employee
  split
  · left; rfl
  · right; rfl

theorem rollUnique_create (req : CreateRequest) (st : ServerState) (h : RollUnique st) :
    RollUnique (create_employee req st).2 := by
  rcases create_employees_cases req st with hc | ⟨row, hc, hfresh⟩
  · unfold RollUnique
    rw [hc]
    exact h
  · unfold RollUnique
    rw [hc, List.map_append, List.nodup_append]
    refine ⟨h, by simp, ?_⟩
    intro a ha hb
    simp only [List.map_cons, List.map_nil, List.mem_singleton] at hb
    obtain ⟨e, he, rfl⟩ := List.mem_map.mp ha
    exact hfresh e he hb

theorem rollUnique_delete (emp_id : Nat) (rf : Bool) (st : ServerState) (h : RollUnique st) :
    RollUnique (delete_employee emp_id rf st).2 := by
  rcases delete_state_employees emp_id rf st with hc | hc <;> unfold RollUnique <;> rw [hc]
  · exact h
  · exact h.sublist ((List.filter_sublist st.employees).map EmployeeRow.roll_number)

theorem reachable_rollUnique (st : ServerState) (h : Reachable st) : RollUnique st := by
  induction h with
  | init st h0 =>
    unfold RollUnique
    rw [h0]
    exact List.nodup_nil
  | createStep req st hst ih => exact rollUnique_create req st ih
  | deleteStep emp_id rf st hst ih => exact rollUnique_delete emp_id rf st ih

/-- C1: in every reachable state no two employee rows share a
`roll_number`; a valid create request whose (trimmed) `roll_number`
already occurs returns HTTP 409 with the duplicate-roll message and
leaves the employee table unchanged; with a fresh `roll_number` the
first create succeeds with HTTP 201 and repeating it returns HTTP 409
without adding a row. -/
theorem roll_number_uniqueness_spec (st : ServerState) (req : CreateRequest)
    (hr : Reachable st) (h1 : missingFieldsOf req = []) (h2 : photoAccepted req) :
    RollUnique st ∧
    ((∃ e ∈ st.employees, e.roll_number = formField req.roll_number) →
      (create_employee req st).1 = CreateResp.conflict "Roll number already exists." ∧
      (create_employee req st).1.status = 409 ∧
      (create_employee req st).2.employees = st.employees) ∧
    ((∀ e ∈ st.employees, e.roll_number ≠ formField req.roll_number) →
      ((∃ u, (create_employee req st).1 = CreateResp.created st.nextEmpId u) ∧
       (create_employee req st).1.status = 201) ∧
      (create_employee req (create_employee req st).2).1 =
        CreateResp.conflict "Roll number already exists." ∧
      (create_employee req (create_employee req st).2).2.employees =
        (create_employee req st).2.employees) := by
  obtain ⟨pp, fl, _, hc⟩ := create_valid_eq_finish req st h1 h2
  refine ⟨reachable_rollUnique st hr, ?_, ?_⟩
  · intro hdup
    rw [hc, finishInsert_dup { st with files := fl } _ _ _ _ _ pp req.timestamp hdup]
    exact ⟨rfl, rfl, rfl⟩
  · intro hfresh
    have hstep := finishInsert_fresh { st with files := fl } (formField req.name)
      (formField req.email) (formField req.department) (formField req.role)
      (formField req.roll_number) pp req.timestamp hfresh
    have hemp2 : (create_employee req st).2.employees = st.employees ++
        [{ id := st.nextEmpId, name := formField req.name, email := formField req.email,
           department := formField req.department, role := formField req.role,
           roll_number := formField req.roll_number, photo_path := pp,
           created_at := req.timestamp }] := by
      rw [hc, hstep]
    obtain ⟨pp2, fl2, _, hc2⟩ := create_valid_eq_finish req (create_employee req st).2 h1 h2
    have hdup2 : ∃ e ∈ ({ (create_employee req st).2 with files := fl2 } :
        ServerState).employees, e.roll_number = formField req.roll_number := by
      show ∃ e ∈ (create_employee req st).2.employees, e.roll_number = formField req.roll_number
      rw [hemp2]
      exact ⟨_, List.mem_append_right _ (List.mem_singleton_self _), rfl⟩
    refine ⟨⟨⟨photoUrlOf pp, ?_⟩, ?_⟩, ?_, ?_⟩
    · rw [hc, hstep]
    · rw [hc, hstep]
      rfl
    · rw [hc2, finishInsert_dup { (create_employee req st).2 with files := fl2 }
        _ _ _ _ _ pp2 req.timestamp hdup2]
    · rw [hc2, finishInsert_dup { (create_employee req st).2 with files := fl2 }
        _ _ _ _ _ pp2 req.timestamp hdup2]

/-- Witness for C1: the freshly initialised state and a concrete valid
request, with every hypothesis discharged. -/
theorem roll_number_uniqueness_witness :
    (Reachable freshState ∧ missingFieldsOf reqFull = [] ∧ photoAccepted reqFull) ∧
    (RollUnique freshState ∧
     ((∃ e ∈ freshState.employees, e.roll_number = formField reqFull.roll_number) →
       (create_employee reqFull freshState).1 =
         CreateResp.conflict "Roll number already exists." ∧
       (create_employee reqFull freshState).1.status = 409 ∧
       (create_employee reqFull freshState).2.employees = freshState.employees) ∧
     ((∀ e ∈ freshState.employees, e.roll_number ≠ formField reqFull.roll_number) →
       ((∃ u, (create_employee reqFull freshState).1 =
          CreateResp.created freshState.nextEmpId u) ∧
        (create_employee reqFull freshState).1.status = 201) ∧
       (create_employee reqFull (create_employee reqFull freshState).2).1 =
         CreateResp.conflict "Roll number already exists." ∧
       (create_employee reqFull (create_employee reqFull freshState).2).2.employees =
         (create_employee reqFull freshState).2.employees)) :=
  ⟨⟨Reachable.init freshState rfl, by decide, fun p hp _ => Option.noConfusion hp⟩,
   roll_number_uniqueness_spec freshState reqFull (Reachable.init freshState rfl)
     (by decide) (fun p hp _ => Option.noConfusion hp)⟩

theorem delete_none_eq (emp_id : Nat) (rf : Bool) (st : ServerState)
    (h : st.employees.find? (fun e => e.id = emp_id) = none) :
    delete_employee emp_id rf st = (DeleteResp.notFound "Employee not found", st) := by
  unfold delete_employee
  rw [h]

theorem delete_found_eq (emp_id : Nat) (rf : Bool) (st : ServerState) (row : EmployeeRow)
    (h : st.employees.find? (fun e => e.id = emp_id) = some row) :
    delete_employee emp_id rf st =
      (DeleteResp.deleted "Employee deleted",
       { st with
         employees := st.employees.filter (fun e => e.id ≠ emp_id),
         files := removePhotoFile rf st.files row.photo_path }) := by
  unfold delete_employee
  rw [h]

theorem removePhotoFile_some (rf : Bool) (files : List String) (p : String)
    (hne : p ≠ "") (hmem : p ∈ files) :
    removePhotoFile rf files (some p) = if rf then files else files.erase p := by
  have hcond : p ≠ "" ∧ p ∈ files := ⟨hne, hmem⟩
  simp only [removePhotoFile]
  rw [if_pos hcond]

theorem length_filter_ne_add_eq (l : List EmployeeRow) (i : Nat) :
    (l.filter (fun e => e.id ≠ i)).length + (l.filter (fun e => e.id = i)).length =
      l.length := by
  induction l with
  | nil => rfl
  | cons a t ih =>
    by_cases h : a.id = i
    · rw [List.filter_cons, List.filter_cons, if_neg (by simp [h]), if_pos (by simp [h])]
      simp only [List.length_cons]
      omega
    · rw [List.filter_cons, List.filter_cons, if_pos (by simp [h]), if_neg (by simp [h])]
      simp only [List.length_cons]
      omega

theorem length_filter_eq_one (l : List EmployeeRow) (i : Nat)
    (hnd : (l.map EmployeeRow.id).Nodup) (hex : ∃ row ∈ l, row.id = i) :
    (l.filter (fun e => e.id = i)).length = 1 := by
  induction l with
  | nil =>
    rcases hex with ⟨r, hr, _⟩
    cases hr
  | cons a t ih =>
    rw [List.map_cons, List.nodup_cons] at hnd
    obtain ⟨hna, hnd⟩ := hnd
    by_cases h : a.id = i
    · have ht : t.filter (fun e => e.id = i) = [] := by
        rw [List.filter_eq_nil_iff]
        intro e he
        simp only [decide_eq_true_eq]
        intro hei
        exact hna (by rw [h, ← hei]; exact List.mem_map_of_mem EmployeeRow.id he)
      simp [List.filter_cons, h, ht]
    · rcases hex with ⟨r, hr, hid⟩
      rcases List.mem_cons.mp hr with rfl | hrt
      · exact absurd hid h
      · simpa [List.filter_cons, h] using ih hnd ⟨r, hrt, hid⟩

/-- C5: deleting an id that is present removes exactly that row,
best-effort removes its recorded photo file (a removal failure is
swallowed and never changes the response), answers HTTP 200, and a
second delete of the same id answers HTTP 404; deleting an absent id
answers HTTP 404 and leaves the state untouched. -/
theorem delete_employee_spec (emp_id : Nat) (rf rf2 : Bool) (st : ServerState)
    (row : EmployeeRow)
    (hfind : st.employees.find? (fun e => e.id = emp_id) = some row) :
    (∀ j, st.employees.find? (fun e => e.id = j) = none →
      delete_employee j rf st = (DeleteResp.notFound "Employee not found", st) ∧
      (delete_employee j rf st).1.status = 404) ∧
    (delete_employee emp_id rf st).1 = DeleteResp.deleted "Employee deleted" ∧
    (delete_employee emp_id rf st).1.status = 200 ∧
    (delete_employee emp_id rf st).1 = (delete_employee emp_id rf2 st).1 ∧
    (delete_employee emp_id rf st).2.employees =
      st.employees.filter (fun e => e.id ≠ emp_id) ∧
    (∀ e, e ∈ (delete_employee emp_id rf st).2.employees ↔
      e ∈ st.employees ∧ e.id ≠ emp_id) ∧
    ((st.employees.map EmployeeRow.id).Nodup →
      (delete_employee emp_id rf st).2.employees.length + 1 = st.employees.length) ∧
    delete_employee emp_id rf2 (delete_employee emp_id rf st).2 =
      (DeleteResp.notFound "Employee not found", (delete_employee emp_id rf st).2) ∧
    (row.photo_path = none → (delete_employee emp_id rf st).2.files = st.files) ∧
    (∀ p, row.photo_path = some p → p ≠ "" → p ∈ st.files →
      (delete_employee emp_id rf st).2.files =
        if rf then st.files else st.files.erase p) := by
  have hd := delete_found_eq emp_id rf st row hfind
  refine ⟨?_, ?_, ?_, ?_, ?_, ?_, ?_, ?_, ?_, ?_⟩
  · intro j hj
    have hn := delete_none_eq j rf st hj
    refine ⟨hn, ?_⟩
    rw [hn]
    rfl
  · rw [hd]
  · rw [hd]
    rfl
  · rw [hd, delete_found_eq emp_id rf2 st row hfind]
  · rw [hd]
  · intro e
    rw [hd]
    show e ∈ st.employees.filter (fun e => e.id ≠ emp_id) ↔ _
    simp [List.mem_filter]
  · intro hnd
    rw [hd]
    have h1 := length_filter_ne_add_eq st.employees emp_id
    have hidrow : row.id = emp_id := by simpa using List.find?_some hfind
    have h2 := length_filter_eq_one st.employees emp_id hnd
      ⟨row, List.mem_of_find?_eq_some hfind, hidrow⟩
    show (st.employees.filter (fun e => e.id ≠ emp_id)).length + 1 = st.employees.length
    omega
  · have hnone : (delete_employee emp_id rf st).2.employees.find?
        (fun e => e.id = emp_id) = none := by
      rw [hd]
      show (st.employees.filter (fun e => e.id ≠ emp_id)).find?
        (fun e => e.id = emp_id) = none
      rw [List.find?_eq_none]
      intro x hx
      have hx2 := (List.mem_filter.mp hx).2
      simpa using hx2
    exact delete_none_eq emp_id rf2 _ hnone
  · intro hpn
    rw [hd]
    show removePhotoFile rf st.files row.photo_path = st.files
    rw [hpn]
    rfl
  · intro p hpp hne hmem
    rw [hd]
    show removePhotoFile rf st.files row.photo_path =
      if rf then st.files else st.files.erase p
    rw [hpp, removePhotoFile_some rf st.files p hne hmem]

/-- Witness for C5: deleting the row with id 2 (which records a photo)
from the two-row state, with `removeFails` false then true. -/
theorem delete_employee_witness :
    twoRowState.employees.find? (fun e => e.id = 2) = some rowTwo ∧
    ((∀ j, twoRowState.employees.find? (fun e => e.id = j) = none →
      delete_employee j false twoRowState =
        (DeleteResp.notFound "Employee not found", twoRowState) ∧
      (delete_employee j false twoRowState).1.status = 404) ∧
    (delete_employee 2 false twoRowState).1 = DeleteResp.deleted "Employee deleted" ∧
    (delete_employee 2 false twoRowState).1.status = 200 ∧
    (delete_employee 2 false twoRowState).1 = (delete_employee 2 true twoRowState).1 ∧
    (delete_employee 2 false twoRowState).2.employees =
      twoRowState.employees.filter (fun e => e.id ≠ 2) ∧
    (∀ e, e ∈ (delete_employee 2 false twoRowState).2.employees ↔
      e ∈ twoRowState.employees ∧ e.id ≠ 2) ∧
    ((twoRowState.employees.map EmployeeRow.id).Nodup →
      (delete_employee 2 false twoRowState).2.employees.length + 1 =
        twoRowState.employees.length) ∧
    delete_employee 2 true (delete_employee 2 false twoRowState).2 =
      (DeleteResp.notFound "Employee not found", (delete_employee 2 false twoRowState).2) ∧
    (rowTwo.photo_path = none → (delete_employee 2 false twoRowState).2.files =
      twoRowState.files) ∧
    (∀ p, rowTwo.photo_path = some p → p ≠ "" → p ∈ twoRowState.files →
      (delete_employee 2 false twoRowState).2.files =
        if false then twoRowState.files else twoRowState.files.erase p)) :=
  ⟨by decide, delete_employee_spec 2 false true twoRowState rowTwo (by decide)⟩

theorem upload_path_ne_empty (f : String) : UPLOAD_DIR_STR ++ "/" ++ f ≠ "" := by
  intro h
  have hlen := congrArg String.length h
  rw [String.length_append, String.length_append] at hlen
  have h1 : UPLOAD_DIR_STR.length = 16 := by decide
  have h2 : ("/" : String).length = 1 := by decide
  have h3 : ("" : String).length = 0 := by decide
  omega

theorem photoPaths_create (req : CreateRequest) (st : ServerState)
    (h : PhotoPathsNonEmpty st) : PhotoPathsNonEmpty (create_employee req st).2 := by
  by_cases h1 : missingFieldsOf req = []
  · by_cases hacc : photoAccepted req
    · obtain ⟨pp, fl, hpp, hc⟩ := create_valid_eq_finish req st h1 hacc
      rw [hc]
      by_cases hdup : ∃ e ∈ ({ st with files := fl } : ServerState).employees,
          e.roll_number = formField req.roll_number
      · rw [finishInsert_dup _ _ _ _ _ _ _ _ hdup]
        exact h
      · push_neg at hdup
        rw [finishInsert_fresh _ _ _ _ _ _ _ _ hdup]
        intro r hr
        rcases List.mem_append.mp hr with hr | hr
        · exact h r hr
        · rw [List.mem_singleton] at hr
          subst hr
          show pp ≠ some ""
          rcases hpp with rfl | ⟨f, rfl⟩
          · simp
          · intro hc2
            injection hc2 with hc2
            exact upload_path_ne_empty f hc2
    · simp only [photoAccepted, not_forall] at hacc
      obtain ⟨p, hp, hf, ha⟩ := hacc
      have hbad : allowed_file p.filename = false := by
        cases hv : allowed_file p.filename
        · rfl
        · exact absurd hv ha
      rw [create_photo_bad req st p h1 hp hf hbad]
      exact h
  · rw [create_missing_eq req st h1]
    exact h

theorem photoPaths_delete (emp_id : Nat) (rf : Bool) (st : ServerState)
    (h : PhotoPathsNonEmpty st) : PhotoPathsNonEmpty (delete_employee emp_id rf st).2 := by
  rcases delete_state_employees emp_id rf st with hc | hc <;> intro r hr
  · rw [hc] at hr
    exact h r hr
  · rw [hc] at hr
    exact h r (List.mem_filter.mp hr).1

/-- In every reachable state all recorded photo paths are non-empty:
the hypothesis of the list-endpoint theorem below holds for every state
the employee store can actually be in. -/
theorem reachable_photoPaths (st : ServerState) (h : Reachable st) :
    PhotoPathsNonEmpty st := by
  induction h with
  | init st h0 =>
    intro r hr
    rw [h0] at hr
    cases hr
  | createStep req st hst ih => exact photoPaths_create req st ih
  | deleteStep emp_id rf st hst ih => exact photoPaths_delete emp_id rf st ih

theorem basename_no_slash (p : String) :
    (basename p).toList.all (fun c => c ≠ '/') = true := by
  rw [List.all_eq_true]
  intro c hc
  have hc' : c ∈ p.toList.reverse.takeWhile (fun c => c ≠ '/') := by
    simpa [basename, List.mem_reverse] using hc
  have hp := List.mem_takeWhile_imp hc'
  simpa using hp

/-- C6: the list endpoint answers HTTP 200 with `ok = true`; the
returned view objects are exactly the shaped employee rows (a
permutation of the table), ordered by id descending; a recorded
`photo_path` becomes `/uploads/<basename>` and an absent one becomes
null; and every non-null `photo_url` in the response is `/uploads/`
followed by a bare filename, so the raw filesystem path never appears.
The hypothesis (recorded paths are non-empty) holds in every reachable
state by `reachable_photoPaths`. -/
theorem list_employees_spec (st : ServerState)
    (hpath : ∀ r ∈ st.employees, r.photo_path ≠ some "") :
    (list_employees st).2 = 200 ∧
    (list_employees st).1.ok = true ∧
    List.Perm (list_employees st).1.employees (st.employees.map row_to_employee_dict) ∧
    List.Pairwise (fun a b : EmployeeView => b.id ≤ a.id)
      (list_employees st).1.employees ∧
    (∀ r ∈ st.employees, (row_to_employee_dict r).photo_url =
      r.photo_path.map (fun p => "/uploads/" ++ basename p)) ∧
    (∀ v ∈ (list_employees st).1.employees, ∀ u, v.photo_url = some u →
      ∃ b, u = "/uploads/" ++ b ∧ b.toList.all (fun c => c ≠ '/') = true) := by
  refine ⟨rfl, rfl, ?_, ?_, ?_, ?_⟩
  · show List.Perm ((selectAllDesc st).map row_to_employee_dict) _
    exact (List.perm_insertionSort empDescOrder st.employees).map _
  · show List.Pairwise _ ((selectAllDesc st).map row_to_employee_dict)
    exact List.Pairwise.map row_to_employee_dict (fun a b h => h)
      (List.sorted_insertionSort empDescOrder st.employees)
  · intro r hr
    cases hpp : r.photo_path with
    | none => simp [row_to_employee_dict, photoUrlOf, hpp]
    | some p =>
      have hne : p ≠ "" := by
        intro hc
        exact hpath r hr (by rw [hpp, hc])
      simp [row_to_employee_dict, photoUrlOf, hpp, hne]
  · intro v hv u hu
    obtain ⟨r, hr, rfl⟩ := List.mem_map.mp hv
    simp only [row_to_employee_dict] at hu
    cases hpp : r.photo_path with
    | none =>
      rw [hpp] at hu
      simp [photoUrlOf] at hu
    | some p =>
      rw [hpp] at hu
      by_cases hne : p = ""
      · simp [photoUrlOf, hne] at hu
      · simp only [photoUrlOf, hne, if_pos, ne_eq, not_false_iff,
          Option.some.injEq, if_true] at hu
        exact ⟨basename p, hu.symm, basename_no_slash p⟩

/-- Witness for C6: the two-row state (ids 1 and 2, one photo). -/
theorem list_employees_witness :
    (∀ r ∈ twoRowState.employees, r.photo_path ≠ some "") ∧
    ((list_employees twoRowState).2 = 200 ∧
     (list_employees twoRowState).1.ok = true ∧
     List.Perm (list_employees twoRowState).1.employees
       (twoRowState.employees.map row_to_employee_dict) ∧
     List.Pairwise (fun a b : EmployeeView => b.id ≤ a.id)
       (list_employees twoRowState).1.employees ∧
     (∀ r ∈ twoRowState.employees, (row_to_employee_dict r).photo_url =
       r.photo_path.map (fun p => "/uploads/" ++ basename p)) ∧
     (∀ v ∈ (list_employees twoRowState).1.employees, ∀ u, v.photo_url = some u →
       ∃ b, u = "/uploads/" ++ b ∧ b.toList.all (fun c => c ≠ '/') = true)) :=
  ⟨by decide, list_employees_spec twoRowState (by decide)⟩

theorem normStep_shape (acc : List String) (s : String) (h : NormShape acc) :
    NormShape (normStep acc s) := by
  obtain ⟨k, rest, rfl, hclean⟩ := h
  unfold normStep
  by_cases h1 : s = "." ∨ s = ""
  · rw [if_pos h1]
    exact ⟨k, rest, rfl, hclean⟩
  · rw [if_neg h1]
    by_cases h2 : s = ".."
    · rw [if_pos h2]
      by_cases h3 : List.replicate k ".." ++ rest = [] ∨
          (List.replicate k ".." ++ rest).getLast? = some ".."
      · rw [if_pos h3]
        have hrest : rest = [] := by
          rcases h3 with h3 | h3
          · exact (List.append_eq_nil.mp h3).2
          · by_contra hne
            rw [List.getLast?_append_of_ne_nil _ hne] at h3
            exact (hclean _ (List.mem_of_getLast?_eq_some h3)).1 rfl
        subst hrest
        refine ⟨k + 1, [], ?_, by simp⟩
        rw [List.append_nil, List.append_nil, List.replicate_succ']
      · rw [if_neg h3]
        push_neg at h3
        obtain ⟨hne, hlast⟩ := h3
        have hrest : rest ≠ [] := by
          intro hr
          subst hr
          rw [List.append_nil] at hne hlast
          have hk : k ≠ 0 := by
            intro h0
            subst h0
            exact hne rfl
          obtain ⟨n, rfl⟩ := Nat.exists_eq_succ_of_ne_zero hk
          rw [List.replicate_succ', List.getLast?_concat] at hlast
          exact hlast rfl
        refine ⟨k, rest.dropLast, ?_, fun x hx => hclean x (List.dropLast_subset rest hx)⟩
        rw [List.dropLast_append_of_ne_nil _ hrest]
    · rw [if_neg h2]
      push_neg at h1
      refine ⟨k, rest ++ [s], by rw [List.append_assoc], ?_⟩
      intro x hx
      rcases List.mem_append.mp hx with hx | hx
      · exact hclean x hx
      · rw [List.mem_singleton] at hx
        subst hx
        exact ⟨h2, h1.1, h1.2⟩

theorem normSegs_shape (l : List String) : NormShape (normSegs l) := by
  suffices h : ∀ acc, NormShape acc → NormShape (l.foldl normStep acc) from
    h [] ⟨0, [], rfl, by simp⟩
  induction l with
  | nil => exact fun acc h => h
  | cons s t ih => exact fun acc h => ih _ (normStep_shape acc s h)

theorem normSegs_clean (l : List String) (h : (normSegs l).head? ≠ some "..") :
    ∀ s ∈ normSegs l, CleanSeg s := by
  obtain ⟨k, rest, heq, hclean⟩ := normSegs_shape l
  cases k with
  | zero =>
    rw [heq]
    simpa using hclean
  | succ n =>
    exfalso
    apply h
    rw [heq, List.replicate_succ]
    rfl

theorem foldl_resolveStep_clean (fn : List String) (h : ∀ s ∈ fn, CleanSeg s) :
    ∀ acc, fn.foldl resolveStep acc = acc ++ fn := by
  induction fn with
  | nil => intro acc; simp
  | cons s t ih =>
    intro acc
    have hs := h s (List.mem_cons_self s t)
    have hstep : resolveStep acc s = acc ++ [s] := by
      unfold resolveStep
      rw [if_neg (by rintro (h1 | h1); exacts [hs.2.1 h1, hs.2.2 h1]), if_neg hs.1]
    rw [List.foldl_cons, hstep, ih (fun x hx => h x (List.mem_cons_of_mem s hx))]
    simp

theorem resolveSegs_append_clean (pre fn : List String) (h : ∀ s ∈ fn, CleanSeg s) :
    resolveSegs (pre ++ fn) = resolveSegs pre ++ fn := by
  unfold resolveSegs
  rw [List.foldl_append, foldl_resolveStep_clean fn h]

/-- C2 counterexample: the static-file endpoint, given the traversal
path `../secret.txt`, serves `/srv/secret.txt`, which lies outside the
application directory `/srv/app`. -/
theorem static_traversal_counterexample :
    static_files [["srv", "secret.txt"]] ["..", "secret.txt"] =
      some ["srv", "secret.txt"] ∧
    ".." ∈ (["..", "secret.txt"] : List String) ∧
    APP_DIR_SEGS.isPrefixOf ["srv", "secret.txt"] = false :=
  ⟨by decide, by decide, by decide⟩

/-- C2 amended: the uploads endpoint confines every served file to the
upload directory (werkzeug's `safe_join` rejects upward traversal, and
an accepted filename resolves to the upload directory followed by clean
segments), but the static-file endpoint performs no such confinement:
a request path containing `..` can serve an existing file outside the
application directory. -/
theorem serving_roots_spec :
    (∀ fs filename served, get_upload fs filename = some served →
      served ∈ fs ∧ ∃ tail, served = UPLOAD_DIR_SEGS ++ tail ∧ ∀ s ∈ tail, CleanSeg s) ∧
    (∃ fs path served, static_files fs path = some served ∧ ".." ∈ path ∧
      APP_DIR_SEGS.isPrefixOf served = false) := by
  constructor
  · intro fs filename served h
    unfold get_upload at h
    split at h
    · cases h
    · next p hsj =>
      split at h
      · next hm =>
        injection h with h
        subst h
        unfold safe_join at hsj
        split at hsj
        · cases hsj
        · next hh =>
          injection hsj with hsj
          subst hsj
          have hclean := normSegs_clean filename hh
          have hres : resolveSegs (UPLOAD_DIR_SEGS ++ normSegs filename) =
              UPLOAD_DIR_SEGS ++ normSegs filename := by
            rw [resolveSegs_append_clean _ _ hclean]
            rfl
          rw [hres]
          rw [hres] at hm
          exact ⟨hm, normSegs filename, rfl, hclean⟩
      · cases h
  · exact ⟨[["srv", "secret.txt"]], ["..", "secret.txt"], ["srv", "secret.txt"],
      by decide, by decide, by decide⟩

end Seeni
